import Mathlib

/-!
Shallow embedding of the policy layer of the civic-engagement ledger
(`administration_system/api/postgres_api.py` together with
`administration_system/api/exceptions.py`).

Modelling conventions:
* Machine-level details of the store are abstracted: a database state is four
  lists of rows mirroring the tables
  `member(id, password, rank, activity_date)`,
  `project(id, id_leader, creation_date)`,
  `action(id, id_project, id_member, type, creation_date)` and
  `vote(id_member, id_action, direction, creation_date)`.
* `datetime` values are kept as the raw integer timestamps handed to
  `datetime.fromtimestamp`; extracting the calendar year of such a value
  (Python's `.year`, Postgres' `EXTRACT(YEAR FROM ...)`) is an external
  primitive of the runtime, so every definition that needs it is
  parameterized by a function `yearOf : Int -> Int`.  The wall-clock year
  `datetime.now().year` read by `_validate_member` is likewise passed
  explicitly as a parameter `nowYear`.
* Password storage uses `crypt(pw, gen_salt('bf'))` at rest and is checked by
  `password = crypt(given, password)`; a bcrypt check succeeds exactly when
  the supplied password equals the stored one, so the model stores the
  password string and compares for equality.
* Error classes follow `exceptions.py`: `InvalidMember` and `InvalidRowCount`
  are subclasses of `psycopg2.InternalError` (via `DatabaseException`), and a
  store unique-constraint violation is a `psycopg2.IntegrityError`, which is
  NOT a subclass of `psycopg2.InternalError`; the `except psycopg2.InternalError`
  blocks at the operation boundaries therefore do not catch it.
-/

inductive DbError where
  | invalidMember
  | invalidRowCount
  | uniqueViolation
deriving DecidableEq, Repr

/-- Errors `InvalidMember` and `InvalidRowCount` derive from `DatabaseException`
(`exceptions.py`), which subclasses `psycopg2.InternalError`; an
`IntegrityError` (unique violation) does not. -/
def DbError.isDatabaseException : DbError → Bool
  | .invalidMember => true
  | .invalidRowCount => true
  | .uniqueViolation => false

/-- Whether the error is an instance of `psycopg2.InternalError`, the class
caught by every `except` block of `postgres_api.py`. -/
def DbError.isInternalError : DbError → Bool
  | .invalidMember => true
  | .invalidRowCount => true
  | .uniqueViolation => false

structure MemberRow where
  id : Int
  password : String
  rank : String
  activityDate : Int
deriving DecidableEq, Repr

structure ProjectRow where
  id : Int
  idLeader : Int
  creationDate : Int
deriving DecidableEq, Repr

structure ActionRow where
  id : Int
  idProject : Int
  idMember : Int
  type : String
  creationDate : Int
deriving DecidableEq, Repr

structure VoteRow where
  idMember : Int
  idAction : Int
  direction : String
  creationDate : Int
deriving DecidableEq, Repr

structure DB where
  members : List MemberRow
  projects : List ProjectRow
  actions : List ActionRow
  votes : List VoteRow
deriving DecidableEq, Repr

def dbEmpty : DB := ⟨[], [], [], []⟩

/-- Modelled from the spec: the schema file `db_definition.sql` is not under
`src/`; per section 6 of the spec the store provides unique-constraint
enforcement on primary keys, and `member.id` is unique (section 3).  An
`INSERT` colliding with an existing id raises an `IntegrityError`
(unique violation). -/
def insertMember (s : DB) (r : MemberRow) : Except DbError DB :=
  if s.members.any (fun x => x.id == r.id) then .error .uniqueViolation
  else .ok { s with members := s.members ++ [r] }

/-- Modelled from the spec: `project.id` is unique (section 3); the store
rejects a duplicate id with a unique violation. -/
def insertProject (s : DB) (r : ProjectRow) : Except DbError DB :=
  if s.projects.any (fun x => x.id == r.id) then .error .uniqueViolation
  else .ok { s with projects := s.projects ++ [r] }

/-- Modelled from the spec: `action.id` is unique (section 3); the store
rejects a duplicate id with a unique violation. -/
def insertAction (s : DB) (r : ActionRow) : Except DbError DB :=
  if s.actions.any (fun x => x.id == r.id) then .error .uniqueViolation
  else .ok { s with actions := s.actions ++ [r] }

/-- Modelled from the spec: a vote is a composite of voting member id and
target action id with at most one vote per pair (section 3), so the store's
primary key on `vote` is `(id_member, id_action)` and a duplicate pair is
rejected with a unique violation. -/
def insertVote (s : DB) (r : VoteRow) : Except DbError DB :=
  if s.votes.any (fun x => x.idMember == r.idMember && x.idAction == r.idAction) then
    .error .uniqueViolation
  else .ok { s with votes := s.votes ++ [r] }

/-- Modelled from the spec: the per-action `upvotes` column read by the SQL
queries of `actions`, `votes` and `trolls` is maintained by the schema file,
which is not under `src/`; per sections 3 and 4.6 of the spec it counts the
up votes the action has received. -/
def upvotesOf (s : DB) (actionId : Int) : Int :=
  ((s.votes.filter (fun v => v.idAction == actionId && v.direction == "up")).length : Int)

/-- Modelled from the spec: the per-action `downvotes` column, counting the
down votes the action has received. -/
def downvotesOf (s : DB) (actionId : Int) : Int :=
  ((s.votes.filter (fun v => v.idAction == actionId && v.direction == "down")).length : Int)

/-- Embeds `_row_existence_check('member', id=i)`: at least one member row with the
given id. -/
def memberExistsB (s : DB) (i : Int) : Bool :=
  s.members.any (fun r => r.id == i)

/-- Embeds `_row_existence_check('member', id=i, rank='leader')`: at least one member
row with the given id and rank `leader` (the condition built by
`_generate_condition` from the keyword arguments). -/
def memberLeaderExistsB (s : DB) (i : Int) : Bool :=
  s.members.any (fun r => r.id == i && r.rank == "leader")

/-- Embeds `_row_existence_check('project', id=i)`. -/
def projectExistsB (s : DB) (i : Int) : Bool :=
  s.projects.any (fun r => r.id == i)

/-- Embeds `_row_existence_check('action', id=i)`. -/
def actionExistsB (s : DB) (i : Int) : Bool :=
  s.actions.any (fun r => r.id == i)

/-- Whether a vote by `m` on action `a` is already recorded (the query of
`_verify_if_voted`, and the key of the store's primary-key check on `vote`). -/
def voteExistsB (s : DB) (m a : Int) : Bool :=
  s.votes.any (fun v => v.idMember == m && v.idAction == a)

/-- Embeds `_row_existence_check`: raises `InvalidRowCount` when the query found no
rows.  The table-specific queries are the `...ExistsB` functions above. -/
def row_existence_check (found : Bool) : Except DbError Unit :=
  if found then .ok () else .error .invalidRowCount

/-- Embeds `_verify_if_voted`: raises `InvalidRowCount` when a vote by the member on
the action is already present.  (Defined in the source but never called.) -/
def verify_if_voted (s : DB) (m a : Int) : Except DbError Unit :=
  if voteExistsB s m a then .error .invalidRowCount else .ok ()

/-- Embeds `_validate_member`: selects the member rows matching id and password
(bcrypt check, modelled as string equality) and raises `InvalidMember` when
there is none or when `datetime.now().year - row.activity_date.year != 0`.
Note the comparison reads the wall clock (`nowYear`), not any request
timestamp.  Read-only. -/
def validate_member (yearOf : Int → Int) (nowYear : Int) (memberId : Int)
    (password : String) (s : DB) : Except DbError Unit :=
  match s.members.find? (fun r => r.id == memberId && r.password == password) with
  | none => .error .invalidMember
  | some r => if nowYear - yearOf r.activityDate != 0 then .error .invalidMember else .ok ()

/-- Embeds `_create_member`: inserts `(member, crypt(password), rank, timestamp)`
into `member`. -/
def create_member (memberId : Int) (password rank : String) (timestamp : Int)
    (s : DB) : Except DbError DB :=
  insertMember s { id := memberId, password := password, rank := rank,
                   activityDate := timestamp }

/-- Embeds `_handle_member`: tries the existence check followed by validation; on any
`DatabaseException` from either step it falls into the creation branch and
inserts a regular member. -/
def handle_member (yearOf : Int → Int) (nowYear : Int) (memberId : Int)
    (password : String) (timestamp : Int) (s : DB) : Except DbError DB :=
  let attempt : Except DbError Unit :=
    match row_existence_check (memberExistsB s memberId) with
    | .ok () => validate_member yearOf nowYear memberId password s
    | .error e => .error e
  match attempt with
  | .ok () => .ok s
  | .error e =>
    if e.isDatabaseException then create_member memberId password "regular" timestamp s
    else .error e

/-- Embeds `_handle_project`: existence check on the project; when it raises
`InvalidRowCount`, either fail with `InvalidMember` (no authority supplied) or
insert the project owned by the supplied authority. -/
def handle_project (projectId : Int) (authority : Option Int) (timestamp : Int)
    (s : DB) : Except DbError DB :=
  match row_existence_check (projectExistsB s projectId) with
  | .ok () => .ok s
  | .error _ =>
    match authority with
    | none => .error .invalidMember
    | some a => insertProject s { id := projectId, idLeader := a, creationDate := timestamp }

/-- Embeds `_verify_leader`: validation followed by the `rank='leader'` existence
check, whose `InvalidRowCount` is re-raised as `InvalidMember`. -/
def verify_leader (yearOf : Int → Int) (nowYear : Int) (memberId : Int)
    (password : String) (s : DB) : Except DbError Unit :=
  match validate_member yearOf nowYear memberId password s with
  | .error e => .error e
  | .ok () =>
    match row_existence_check (memberLeaderExistsB s memberId) with
    | .ok () => .ok ()
    | .error _ => .error .invalidMember

/-- Result of a mutating operation: the two JSON envelopes, the bare `None`
that `leader` returns on success, or an exception that escaped the
`except psycopg2.InternalError` block. -/
inductive MutOutcome where
  | success
  | failure
  | pyNone
  | raised (e : DbError)
deriving DecidableEq, Repr

/-- The `except psycopg2.InternalError` boundary of a mutating operation:
internal errors become the `{'status': 'ERROR'}` envelope, anything else
propagates to the caller. -/
def mutBoundary (e : DbError) : MutOutcome :=
  if e.isInternalError then .failure else .raised e

/-- Embeds `_define_action`: member provisioning, project resolution, then the
`INSERT INTO action VALUES (action, project, member, statement, timestamp)`,
all inside one `try` block whose `except psycopg2.InternalError` yields the
failure envelope. -/
def define_action (yearOf : Int → Int) (nowYear : Int) (timestamp member : Int)
    (password : String) (action project : Int) (statement : String)
    (authority : Option Int) (s : DB) : MutOutcome × DB :=
  match handle_member yearOf nowYear member password timestamp s with
  | .error e => (mutBoundary e, s)
  | .ok s1 =>
    match handle_project project authority timestamp s1 with
    | .error e => (mutBoundary e, s1)
    | .ok s2 =>
      match insertAction s2 { id := action, idProject := project, idMember := member,
                              type := statement, creationDate := timestamp } with
      | .error e => (mutBoundary e, s2)
      | .ok s3 => (.success, s3)

/-- Embeds `support`. -/
def support (yearOf : Int → Int) (nowYear : Int) (timestamp member : Int)
    (password : String) (action project : Int) (authority : Option Int)
    (s : DB) : MutOutcome × DB :=
  define_action yearOf nowYear timestamp member password action project "support" authority s

/-- Embeds `protest`. -/
def protest (yearOf : Int → Int) (nowYear : Int) (timestamp member : Int)
    (password : String) (action project : Int) (authority : Option Int)
    (s : DB) : MutOutcome × DB :=
  define_action yearOf nowYear timestamp member password action project "protest" authority s

/-- Embeds `_vote`: member provisioning, the existence check on the target action,
then `INSERT INTO vote VALUES (member, action, vote, timestamp)`.  No check of
prior voting is made before the insert (`_verify_if_voted` is never called);
the insert is only constrained by the store's primary key on `vote`. -/
def vote_op (yearOf : Int → Int) (nowYear : Int) (timestamp member : Int)
    (password : String) (action : Int) (vote : String) (s : DB) : MutOutcome × DB :=
  match handle_member yearOf nowYear member password timestamp s with
  | .error e => (mutBoundary e, s)
  | .ok s1 =>
    match row_existence_check (actionExistsB s1 action) with
    | .error e => (mutBoundary e, s1)
    | .ok () =>
      match insertVote s1 { idMember := member, idAction := action,
                            direction := vote, creationDate := timestamp } with
      | .error e => (mutBoundary e, s1)
      | .ok s2 => (.success, s2)

/-- Embeds `upvote`. -/
def upvote (yearOf : Int → Int) (nowYear : Int) (timestamp member : Int)
    (password : String) (action : Int) (s : DB) : MutOutcome × DB :=
  vote_op yearOf nowYear timestamp member password action "up" s

/-- Embeds `downvote`. -/
def downvote (yearOf : Int → Int) (nowYear : Int) (timestamp member : Int)
    (password : String) (action : Int) (s : DB) : MutOutcome × DB :=
  vote_op yearOf nowYear timestamp member password action "down" s

/-- Embeds `leader`: unconditionally inserts a member with rank `leader`.  On success
the Python function falls off the end and returns `None`; only an
`InternalError` is converted into the failure envelope. -/
def leader (timestamp : Int) (password : String) (member : Int) (s : DB) :
    MutOutcome × DB :=
  match create_member member password "leader" timestamp s with
  | .ok s1 => (.pyNone, s1)
  | .error e => (mutBoundary e, s)

/-- Result of a read operation: the data-carrying success envelope, the
failure envelope, or an exception that escaped the `except` block. -/
inductive ListOutcome (α : Type) where
  | success (data : List α)
  | failure
  | raised (e : DbError)
deriving DecidableEq, Repr

/-- The `except psycopg2.InternalError` boundary of a read operation. -/
def listBoundary {α : Type} (e : DbError) : ListOutcome α :=
  if e.isInternalError then .failure else .raised e

/-- An optional filter built by `_generate_condition`: a `None` value
contributes no conjunct, a present value an equality. -/
def optSatInt (o : Option Int) (x : Int) : Bool :=
  match o with
  | none => true
  | some v => v == x

/-- As `optSatInt`, for string-valued columns. -/
def optSatStr (o : Option String) (x : String) : Bool :=
  match o with
  | none => true
  | some v => v == x

/-- SQL `DISTINCT`: one copy of each row, first occurrences kept. -/
def dedupKeepFirst {α : Type} [BEq α] (l : List α) : List α :=
  l.foldl (fun acc x => if acc.any (fun y => y == x) then acc else acc ++ [x]) []

/-- Insert into a list sorted by `le`. -/
def insertSorted {α : Type} (le : α → α → Bool) (x : α) : List α → List α
  | [] => [x]
  | y :: ys => if le x y then x :: y :: ys else y :: insertSorted le x ys

/-- SQL `ORDER BY`: insertion sort by a boolean comparison (one of the orders
compatible with the requested keys). -/
def sortBy {α : Type} (le : α → α → Bool) : List α → List α
  | [] => []
  | x :: xs => insertSorted le x (sortBy le xs)

/-- Row shape of the `actions` listing:
`(action.id, type, id_project, project.id_leader, upvotes, downvotes)`. -/
abbrev ActionsRow := Int × String × Int × Int × Int × Int

/-- The query of `actions`: `action LEFT JOIN vote` (which only multiplies
rows, since no vote column is selected or filtered) `JOIN project`, the
optional filters on type, project id and leader id, `DISTINCT`, and
`ORDER BY action.id`. -/
def actionsQueryRows (s : DB) (actionType : Option String)
    (projF authF : Option Int) : List ActionsRow :=
  let joined := s.actions.flatMap (fun a =>
    let voteRows := s.votes.filter (fun v => v.idAction == a.id)
    let mult := if voteRows.isEmpty then [()] else voteRows.map (fun _ => ())
    mult.flatMap (fun _ =>
      (s.projects.filter (fun p => p.id == a.idProject)).map (fun p => (a, p))))
  let filtered := joined.filter (fun ap =>
    optSatStr actionType ap.1.type && optSatInt projF ap.2.id &&
      optSatInt authF ap.2.idLeader)
  let selected := filtered.map (fun ap =>
    (ap.1.id, ap.1.type, ap.1.idProject, ap.2.idLeader,
      upvotesOf s ap.1.id, downvotesOf s ap.1.id))
  sortBy (fun r1 r2 => decide (r1.1 ≤ r2.1)) (dedupKeepFirst selected)

/-- Embeds `actions`: leader verification inside the `try`, then the query. -/
def actions_op (yearOf : Int → Int) (nowYear : Int) (member : Int)
    (password : String) (actionType : Option String) (projF authF : Option Int)
    (s : DB) : ListOutcome ActionsRow × DB :=
  match verify_leader yearOf nowYear member password s with
  | .error e => (listBoundary e, s)
  | .ok () => (.success (actionsQueryRows s actionType projF authF), s)

/-- The query of `projects`: optional filter on `id_leader`, `DISTINCT`,
`ORDER BY id`. -/
def projectsQueryRows (s : DB) (authF : Option Int) : List (Int × Int) :=
  sortBy (fun r1 r2 => decide (r1.1 ≤ r2.1))
    (dedupKeepFirst
      ((s.projects.filter (fun p => optSatInt authF p.idLeader)).map
        (fun p => (p.id, p.idLeader))))

/-- Embeds `projects`. -/
def projects_op (yearOf : Int → Int) (nowYear : Int) (member : Int)
    (password : String) (authF : Option Int) (s : DB) :
    ListOutcome (Int × Int) × DB :=
  match verify_leader yearOf nowYear member password s with
  | .error e => (listBoundary e, s)
  | .ok () => (.success (projectsQueryRows s authF), s)

/-- The inner subquery of `votes`:
`vote LEFT JOIN action ON (vote.id_action=action.id) JOIN project` with the
optional filters; the inner `JOIN project` discards every vote row whose
action is absent, making the join effectively inner throughout. -/
def votesInnerRows (s : DB) (actF projF : Option Int) : List (Int × Int × Int) :=
  let joined := s.votes.flatMap (fun v =>
    (s.actions.filter (fun a => a.id == v.idAction)).flatMap (fun a =>
      (s.projects.filter (fun p => p.id == a.idProject)).map (fun p => (v, a, p))))
  let filtered := joined.filter (fun vap =>
    optSatInt actF vap.1.idAction && optSatInt projF vap.2.2.id)
  filtered.map (fun vap => (vap.1.idMember, upvotesOf s vap.2.1.id, downvotesOf s vap.2.1.id))

/-- The query of `votes`: every member `LEFT JOIN` the inner subquery on the
member id, `COALESCE` the counters to 0, `DISTINCT`, `ORDER BY member.id`. -/
def votesQueryRows (s : DB) (actF projF : Option Int) : List (Int × Int × Int) :=
  let inner := votesInnerRows s actF projF
  let rows := s.members.flatMap (fun m =>
    let ms := inner.filter (fun r => r.1 == m.id)
    if ms.isEmpty then [(m.id, 0, 0)] else ms.map (fun r => (m.id, r.2.1, r.2.2)))
  sortBy (fun r1 r2 => decide (r1.1 ≤ r2.1)) (dedupKeepFirst rows)

/-- Embeds `votes`. -/
def votes_op (yearOf : Int → Int) (nowYear : Int) (member : Int)
    (password : String) (actF projF : Option Int) (s : DB) :
    ListOutcome (Int × Int × Int) × DB :=
  match verify_leader yearOf nowYear member password s with
  | .error e => (listBoundary e, s)
  | .ok () => (.success (votesQueryRows s actF projF), s)

/-- Row shape of the `trolls` query: `(member.id, sum(upvotes),
sum(downvotes), year flag)`. -/
abbrev TrollRow := Int × Int × Int × Bool

/-- The query of `trolls`:
`member JOIN action ON (member.id=action.id_member)`, the row-level filter
`WHERE downvotes - upvotes > 0` (applied per action, before grouping),
`GROUP BY member.id, upvotes, downvotes` (the per-action counters are part of
the key, so the sums only total actions with identical counters),
the selected year flag
`EXTRACT(YEAR FROM timestamp) - EXTRACT(YEAR FROM member.activity_date) <= 0`,
and `ORDER BY downvotes-upvotes DESC, member.id ASC` on the grouped
per-action counters. -/
def trollsQueryRows (yearOf : Int → Int) (timestamp : Int) (s : DB) :
    List TrollRow :=
  let joined := s.members.flatMap (fun m =>
    (s.actions.filter (fun a => a.idMember == m.id)).map (fun a => (m, a)))
  let filtered := joined.filter (fun ma =>
    decide (downvotesOf s ma.2.id - upvotesOf s ma.2.id > 0))
  let keyed : List (Int × Int × Int × Bool) := filtered.map (fun ma =>
    (ma.1.id, upvotesOf s ma.2.id, downvotesOf s ma.2.id,
      decide (yearOf timestamp - yearOf ma.1.activityDate ≤ 0)))
  let keys := dedupKeepFirst keyed
  let sortedKeys := sortBy (fun k1 k2 =>
    decide (k1.2.2.1 - k1.2.1 > k2.2.2.1 - k2.2.1) ||
      (k1.2.2.1 - k1.2.1 == k2.2.2.1 - k2.2.1 && decide (k1.1 ≤ k2.1))) keys
  sortedKeys.map (fun k =>
    let n : Int := ((keyed.filter (fun x => x == k)).length : Int)
    (k.1, n * k.2.1, n * k.2.2.1, k.2.2.2))

/-- Embeds `trolls`: unauthenticated; the `SELECT` itself raises no policy error, so
the operation always returns the success envelope. -/
def trolls (yearOf : Int → Int) (timestamp : Int) (s : DB) :
    ListOutcome TrollRow × DB :=
  (.success (trollsQueryRows yearOf timestamp s), s)

/-! ## Observers, claim-side definitions and concrete states -/

/-- An operation leaves every pre-existing member row untouched: the member
table either is unchanged or has exactly one new row appended whose id was not
present before (so no pre-existing member's rank or activity timestamp is
altered, and no second row for an existing id appears). -/
def MembersFramed (pre post : List MemberRow) : Prop :=
  post = pre ∨ ∃ nr, post = pre ++ [nr] ∧ pre.any (fun x => x.id == nr.id) = false

/-- Whether the only exceptions that escape a mutating operation are outside
`psycopg2.InternalError` (so the `except` boundary never re-raises what it was
written to catch). -/
def raisedOnlyExternal : MutOutcome → Bool
  | .raised e => !e.isInternalError
  | _ => true

/-- Whether a read operation returned one of the two envelopes (no escaped
exception). -/
def listNeverRaises {α : Type} : ListOutcome α → Bool
  | .raised _ => false
  | _ => true

def isOkU : Except DbError Unit → Bool
  | .ok () => true
  | .error _ => false

def isSuccessL {α : Type} : ListOutcome α → Bool
  | .success _ => true
  | _ => false

/-- The project table an attempted project resolution leaves behind (the
pre-state's when it raised). -/
def projectsAfter (r : Except DbError DB) (s : DB) : List ProjectRow :=
  match r with
  | .ok s2 => s2.projects
  | .error _ => s.projects

/-- Stated from claim C2 for refutation: the vote path as the claim describes
it, with a prior-vote existence check (the source's never-called
`_verify_if_voted`) performed before the insert.  Its `InvalidRowCount` is a
`DatabaseException`/`InternalError`, so the operation boundary would catch it
and answer with the failure envelope. -/
def vote_op_claim (yearOf : Int → Int) (nowYear : Int) (timestamp member : Int)
    (password : String) (action : Int) (vote : String) (s : DB) : MutOutcome × DB :=
  match handle_member yearOf nowYear member password timestamp s with
  | .error e => (mutBoundary e, s)
  | .ok s1 =>
    match row_existence_check (actionExistsB s1 action) with
    | .error e => (mutBoundary e, s1)
    | .ok () =>
      match verify_if_voted s1 member action with
      | .error e => (mutBoundary e, s1)
      | .ok () =>
        match insertVote s1 { idMember := member, idAction := action,
                              direction := vote, creationDate := timestamp } with
        | .error e => (mutBoundary e, s1)
        | .ok s2 => (.success, s2)

/-- Stated from claim C5 for refutation: member authentication as the claim
words it, comparing the member's activity year with the year of the REQUEST
timestamp instead of the processing-time wall-clock year. -/
def validate_member_claim (yearOf : Int → Int) (requestTs m : Int)
    (pw : String) (s : DB) : Except DbError Unit :=
  match s.members.find? (fun r => r.id == m && r.password == pw) with
  | none => .error .invalidMember
  | some r =>
    if yearOf requestTs - yearOf r.activityDate != 0 then .error .invalidMember
    else .ok ()

/-- Claim C1's aggregate (spec section 3): total upvotes received across ALL
of a member's actions. -/
def memberTotalUpvotes (s : DB) (m : Int) : Int :=
  ((s.actions.filter (fun a => a.idMember == m)).map (fun a => upvotesOf s a.id)).sum

/-- Claim C1's aggregate: total downvotes received across ALL of a member's
actions. -/
def memberTotalDownvotes (s : DB) (m : Int) : Int :=
  ((s.actions.filter (fun a => a.idMember == m)).map (fun a => downvotesOf s a.id)).sum

/-- A reachable state for claim C1: member 1 authored action 1 (five upvotes)
and action 2 (three downvotes) on project 1, owned by leader 7; members 2..6
cast the votes. -/
def dbC1 : DB :=
  { members :=
      [ { id := 1, password := "p1", rank := "regular", activityDate := 2020 },
        { id := 2, password := "p2", rank := "regular", activityDate := 2020 },
        { id := 3, password := "p3", rank := "regular", activityDate := 2020 },
        { id := 4, password := "p4", rank := "regular", activityDate := 2020 },
        { id := 5, password := "p5", rank := "regular", activityDate := 2020 },
        { id := 6, password := "p6", rank := "regular", activityDate := 2020 },
        { id := 7, password := "p7", rank := "leader", activityDate := 2020 } ],
    projects := [ { id := 1, idLeader := 7, creationDate := 2020 } ],
    actions :=
      [ { id := 1, idProject := 1, idMember := 1, type := "support", creationDate := 2021 },
        { id := 2, idProject := 1, idMember := 1, type := "protest", creationDate := 2021 } ],
    votes :=
      [ { idMember := 2, idAction := 1, direction := "up", creationDate := 2021 },
        { idMember := 3, idAction := 1, direction := "up", creationDate := 2021 },
        { idMember := 4, idAction := 1, direction := "up", creationDate := 2021 },
        { idMember := 5, idAction := 1, direction := "up", creationDate := 2021 },
        { idMember := 6, idAction := 1, direction := "up", creationDate := 2021 },
        { idMember := 2, idAction := 2, direction := "down", creationDate := 2021 },
        { idMember := 3, idAction := 2, direction := "down", creationDate := 2021 },
        { idMember := 4, idAction := 2, direction := "down", creationDate := 2021 } ] }

/-- A small reachable state: leader 9 owns project 1 and proposed action 7;
member 1 is a regular member created in 2025 with password "p". -/
def dbAuth : DB :=
  { members :=
      [ { id := 1, password := "p", rank := "regular", activityDate := 2025 },
        { id := 9, password := "q", rank := "leader", activityDate := 2025 } ],
    projects := [ { id := 1, idLeader := 9, creationDate := 2025 } ],
    actions :=
      [ { id := 7, idProject := 1, idMember := 9, type := "support", creationDate := 2025 } ],
    votes := [] }

/-- A state for claim C3: member 5 exists with password "good" and activity
year 2025; project 1 exists. -/
def dbC3 : DB :=
  { members := [ { id := 5, password := "good", rank := "regular", activityDate := 2025 } ],
    projects := [ { id := 1, idLeader := 5, creationDate := 2025 } ],
    actions := [], votes := [] }

/-- A state for claim C5: member 1 with password "p" was created in 2025;
leader 9 owns project 1 with action 7. -/
def dbC5 : DB :=
  { members :=
      [ { id := 1, password := "p", rank := "regular", activityDate := 2025 },
        { id := 9, password := "q", rank := "leader", activityDate := 2025 } ],
    projects := [ { id := 1, idLeader := 9, creationDate := 2025 } ],
    actions :=
      [ { id := 7, idProject := 1, idMember := 9, type := "support", creationDate := 2025 } ],
    votes := [] }

/-- A state for claim C8: a regular member 1 with correct password "p" and
fresh activity year 2025, next to an unrelated leader 9. -/
def dbC8 : DB :=
  { members :=
      [ { id := 1, password := "p", rank := "regular", activityDate := 2025 },
        { id := 9, password := "q", rank := "leader", activityDate := 2025 } ],
    projects := [], actions := [], votes := [] }

/-! ## Characterization lemmas for the embedded components -/

theorem create_member_eq (m : Int) (pw rk : String) (ts : Int) (s : DB) :
    create_member m pw rk ts s =
      if memberExistsB s m then .error .uniqueViolation
      else .ok { s with members := s.members ++
                  [{ id := m, password := pw, rank := rk, activityDate := ts }] } := by
  simp only [create_member, insertMember, memberExistsB]

theorem validate_member_cases (yearOf : Int → Int) (nowYear m : Int)
    (pw : String) (s : DB) :
    validate_member yearOf nowYear m pw s = .ok () ∨
      validate_member yearOf nowYear m pw s = .error .invalidMember := by
  unfold validate_member
  cases h : s.members.find? (fun r => r.id == m && r.password == pw) with
  | none => right; rfl
  | some r =>
    by_cases hy : nowYear - yearOf r.activityDate != 0
    · right; simp [hy]
    · left; simp [hy]

theorem handle_member_eq (yearOf : Int → Int) (nowYear m : Int) (pw : String)
    (ts : Int) (s : DB) :
    handle_member yearOf nowYear m pw ts s =
      if memberExistsB s m then
        match validate_member yearOf nowYear m pw s with
        | .ok () => .ok s
        | .error _ => .error .uniqueViolation
      else .ok { s with members := s.members ++
                  [{ id := m, password := pw, rank := "regular", activityDate := ts }] } := by
  unfold handle_member row_existence_check
  cases hE : memberExistsB s m
  · simp only [Bool.false_eq_true, if_false, if_true, reduceIte]
    simp [DbError.isDatabaseException, create_member_eq, hE]
  · simp only [if_true, reduceIte]
    rcases validate_member_cases yearOf nowYear m pw s with hv | hv <;>
      simp [hv, DbError.isDatabaseException, create_member_eq, hE]

theorem handle_member_ok_cases (yearOf : Int → Int) (nowYear m : Int)
    (pw : String) (ts : Int) (s s1 : DB)
    (h : handle_member yearOf nowYear m pw ts s = .ok s1) :
    s1 = s ∨
      (s1 = { s with members := s.members ++
                [{ id := m, password := pw, rank := "regular", activityDate := ts }] } ∧
        memberExistsB s m = false) := by
  rw [handle_member_eq] at h
  by_cases hE : memberExistsB s m
  · rw [if_pos hE] at h
    rcases validate_member_cases yearOf nowYear m pw s with hv | hv <;> rw [hv] at h
    · left; cases h; rfl
    · cases h
  · rw [if_neg hE] at h
    right
    refine ⟨?_, by simpa using hE⟩
    cases h; rfl

theorem handle_member_error_eq (yearOf : Int → Int) (nowYear m : Int)
    (pw : String) (ts : Int) (s : DB) (e : DbError)
    (h : handle_member yearOf nowYear m pw ts s = .error e) :
    e = .uniqueViolation := by
  rw [handle_member_eq] at h
  by_cases hE : memberExistsB s m
  · rw [if_pos hE] at h
    rcases validate_member_cases yearOf nowYear m pw s with hv | hv <;> rw [hv] at h
    · cases h
    · cases h; rfl
  · rw [if_neg hE] at h; cases h

theorem handle_project_eq (pid : Int) (auth : Option Int) (ts : Int) (s : DB) :
    handle_project pid auth ts s =
      if projectExistsB s pid then .ok s
      else
        match auth with
        | none => .error .invalidMember
        | some a => .ok { s with projects := s.projects ++
                          [{ id := pid, idLeader := a, creationDate := ts }] } := by
  unfold handle_project row_existence_check insertProject
  cases hE : projectExistsB s pid <;> cases auth <;>
    simp_all [projectExistsB]

theorem handle_project_ok_members (pid : Int) (auth : Option Int) (ts : Int)
    (s s2 : DB) (h : handle_project pid auth ts s = .ok s2) :
    s2.members = s.members ∧ s2.actions = s.actions ∧ s2.votes = s.votes := by
  rw [handle_project_eq] at h
  by_cases hE : projectExistsB s pid
  · rw [if_pos hE] at h; cases h; exact ⟨rfl, rfl, rfl⟩
  · rw [if_neg hE] at h
    cases auth with
    | none => cases h
    | some a => cases h; exact ⟨rfl, rfl, rfl⟩

theorem handle_project_error_eq (pid : Int) (auth : Option Int) (ts : Int)
    (s : DB) (e : DbError) (h : handle_project pid auth ts s = .error e) :
    e = .invalidMember ∧ projectExistsB s pid = false ∧ auth = none := by
  rw [handle_project_eq] at h
  by_cases hE : projectExistsB s pid
  · rw [if_pos hE] at h; cases h
  · rw [if_neg hE] at h
    cases auth with
    | none => cases h; exact ⟨rfl, by simpa using hE, rfl⟩
    | some a => cases h

theorem verify_leader_eq (yearOf : Int → Int) (nowYear m : Int) (pw : String)
    (s : DB) :
    verify_leader yearOf nowYear m pw s =
      match validate_member yearOf nowYear m pw s with
      | .error e => .error e
      | .ok () =>
        if memberLeaderExistsB s m then .ok () else .error .invalidMember := by
  unfold verify_leader row_existence_check
  rcases validate_member_cases yearOf nowYear m pw s with hv | hv <;> rw [hv]
  cases hL : memberLeaderExistsB s m <;> simp [hL]

theorem verify_leader_error_eq (yearOf : Int → Int) (nowYear m : Int)
    (pw : String) (s : DB) (e : DbError)
    (h : verify_leader yearOf nowYear m pw s = .error e) :
    e = .invalidMember := by
  rw [verify_leader_eq] at h
  rcases validate_member_cases yearOf nowYear m pw s with hv | hv <;> rw [hv] at h
  · by_cases hL : memberLeaderExistsB s m
    · rw [if_pos hL] at h; cases h
    · rw [if_neg hL] at h; cases h; rfl
  · cases h; rfl

theorem insertAction_ok_members (s : DB) (r : ActionRow) (s2 : DB)
    (h : insertAction s r = .ok s2) :
    s2.members = s.members ∧ s2.projects = s.projects ∧ s2.votes = s.votes := by
  unfold insertAction at h
  by_cases hE : s.actions.any (fun x => x.id == r.id)
  · rw [if_pos hE] at h; cases h
  · rw [if_neg hE] at h; cases h; exact ⟨rfl, rfl, rfl⟩

theorem insertVote_ok_members (s : DB) (r : VoteRow) (s2 : DB)
    (h : insertVote s r = .ok s2) :
    s2.members = s.members ∧ s2.projects = s.projects ∧ s2.actions = s.actions := by
  unfold insertVote at h
  by_cases hE : s.votes.any (fun x => x.idMember == r.idMember && x.idAction == r.idAction)
  · rw [if_pos hE] at h; cases h
  · rw [if_neg hE] at h; cases h; exact ⟨rfl, rfl, rfl⟩

theorem insertAction_error_eq (s : DB) (r : ActionRow) (e : DbError)
    (h : insertAction s r = .error e) : e = .uniqueViolation := by
  unfold insertAction at h
  by_cases hE : s.actions.any (fun x => x.id == r.id)
  · rw [if_pos hE] at h; cases h; rfl
  · rw [if_neg hE] at h; cases h

theorem insertVote_error_eq (s : DB) (r : VoteRow) (e : DbError)
    (h : insertVote s r = .error e) : e = .uniqueViolation := by
  unfold insertVote at h
  by_cases hE : s.votes.any (fun x => x.idMember == r.idMember && x.idAction == r.idAction)
  · rw [if_pos hE] at h; cases h; rfl
  · rw [if_neg hE] at h; cases h

/-! ## Lookups under unique member ids -/

theorem find_member_unique (s : DB) (m : Int) (pw : String) (r : MemberRow)
    (hnd : (s.members.map (fun x => x.id)).Nodup) (hr : r ∈ s.members)
    (hid : r.id = m) (hpw : r.password = pw) :
    s.members.find? (fun x => x.id == m && x.password == pw) = some r := by
  cases hf : s.members.find? (fun x => x.id == m && x.password == pw) with
  | none =>
    rw [List.find?_eq_none] at hf
    exact absurd (by simp [hid, hpw] : (fun x => x.id == m && x.password == pw) r = true)
      (by simpa using hf r hr)
  | some r2 =>
    have hmem := List.mem_of_find?_eq_some hf
    have hp := List.find?_some hf
    simp only [Bool.and_eq_true, beq_iff_eq] at hp
    have hEq : r2 = r :=
      List.inj_on_of_nodup_map hnd hmem hr (by rw [hp.1, hid])
    rw [hEq]

theorem memberLeaderExistsB_false_of_regular (s : DB) (m : Int) (r : MemberRow)
    (hnd : (s.members.map (fun x => x.id)).Nodup) (hr : r ∈ s.members)
    (hid : r.id = m) (hrank : r.rank = "regular") :
    memberLeaderExistsB s m = false := by
  by_contra h
  rw [Bool.not_eq_false] at h
  unfold memberLeaderExistsB at h
  rw [List.any_eq_true] at h
  obtain ⟨x, hx, hcond⟩ := h
  simp only [Bool.and_eq_true, beq_iff_eq] at hcond
  have hEq : x = r := List.inj_on_of_nodup_map hnd hx hr (by rw [hcond.1, hid])
  rw [hEq, hrank] at hcond
  exact absurd hcond.2 (by decide)

/-! ## Frame of the member table -/

theorem membersFramed_refl (l : List MemberRow) : MembersFramed l l := Or.inl rfl

theorem handle_member_framed (yearOf : Int → Int) (nowYear m : Int)
    (pw : String) (ts : Int) (s s1 : DB)
    (h : handle_member yearOf nowYear m pw ts s = .ok s1) :
    MembersFramed s.members s1.members := by
  rcases handle_member_ok_cases yearOf nowYear m pw ts s s1 h with h1 | ⟨h1, h2⟩
  · rw [h1]; exact membersFramed_refl _
  · right
    exact ⟨_, by rw [h1], by simpa [memberExistsB] using h2⟩

theorem raisedOnlyExternal_mutBoundary (e : DbError) :
    raisedOnlyExternal (mutBoundary e) = true := by
  cases e <;> rfl

theorem listNeverRaises_listBoundary {α : Type} (e : DbError)
    (h : e.isInternalError = true) :
    listNeverRaises (listBoundary (α := α) e) = true := by
  unfold listBoundary
  rw [h]
  rfl

/-! ## Outcome shapes of the operations -/

theorem define_action_outcome_boundary (yearOf : Int → Int) (nowYear ts m : Int)
    (pw : String) (a p : Int) (stmt : String) (auth : Option Int) (s : DB) :
    (define_action yearOf nowYear ts m pw a p stmt auth s).1 = .success ∨
      ∃ e, (define_action yearOf nowYear ts m pw a p stmt auth s).1 = mutBoundary e := by
  unfold define_action
  split
  · exact Or.inr ⟨_, rfl⟩
  · split
    · exact Or.inr ⟨_, rfl⟩
    · split
      · exact Or.inr ⟨_, rfl⟩
      · exact Or.inl rfl

theorem vote_op_outcome_boundary (yearOf : Int → Int) (nowYear ts m : Int)
    (pw : String) (a : Int) (d : String) (s : DB) :
    (vote_op yearOf nowYear ts m pw a d s).1 = .success ∨
      ∃ e, (vote_op yearOf nowYear ts m pw a d s).1 = mutBoundary e := by
  unfold vote_op
  split
  · exact Or.inr ⟨_, rfl⟩
  · split
    · exact Or.inr ⟨_, rfl⟩
    · split
      · exact Or.inr ⟨_, rfl⟩
      · exact Or.inl rfl

theorem actions_op_eq (yearOf : Int → Int) (nowYear m : Int) (pw : String)
    (atype : Option String) (pF aF : Option Int) (s : DB) :
    actions_op yearOf nowYear m pw atype pF aF s =
      (if isOkU (validate_member yearOf nowYear m pw s) && memberLeaderExistsB s m
       then .success (actionsQueryRows s atype pF aF) else .failure, s) := by
  unfold actions_op
  rw [verify_leader_eq]
  rcases validate_member_cases yearOf nowYear m pw s with hv | hv <;> rw [hv]
  · cases hL : memberLeaderExistsB s m <;>
      simp [hL, isOkU, listBoundary, DbError.isInternalError]
  · simp [isOkU, listBoundary, DbError.isInternalError]

theorem projects_op_eq (yearOf : Int → Int) (nowYear m : Int) (pw : String)
    (aF : Option Int) (s : DB) :
    projects_op yearOf nowYear m pw aF s =
      (if isOkU (validate_member yearOf nowYear m pw s) && memberLeaderExistsB s m
       then .success (projectsQueryRows s aF) else .failure, s) := by
  unfold projects_op
  rw [verify_leader_eq]
  rcases validate_member_cases yearOf nowYear m pw s with hv | hv <;> rw [hv]
  · cases hL : memberLeaderExistsB s m <;>
      simp [hL, isOkU, listBoundary, DbError.isInternalError]
  · simp [isOkU, listBoundary, DbError.isInternalError]

theorem votes_op_eq (yearOf : Int → Int) (nowYear m : Int) (pw : String)
    (actF pF : Option Int) (s : DB) :
    votes_op yearOf nowYear m pw actF pF s =
      (if isOkU (validate_member yearOf nowYear m pw s) && memberLeaderExistsB s m
       then .success (votesQueryRows s actF pF) else .failure, s) := by
  unfold votes_op
  rw [verify_leader_eq]
  rcases validate_member_cases yearOf nowYear m pw s with hv | hv <;> rw [hv]
  · cases hL : memberLeaderExistsB s m <;>
      simp [hL, isOkU, listBoundary, DbError.isInternalError]
  · simp [isOkU, listBoundary, DbError.isInternalError]

/-! ## Insert lemmas for the vote table -/

theorem insertVote_fresh (s : DB) (m a : Int) (d : String) (ts : Int)
    (h : voteExistsB s m a = false) :
    insertVote s { idMember := m, idAction := a, direction := d, creationDate := ts } =
      .ok { s with votes := s.votes ++
        [{ idMember := m, idAction := a, direction := d, creationDate := ts }] } := by
  unfold voteExistsB at h
  unfold insertVote
  simp [h]

theorem insertVote_dup (s : DB) (m a : Int) (d : String) (ts : Int)
    (h : voteExistsB s m a = true) :
    insertVote s { idMember := m, idAction := a, direction := d, creationDate := ts } =
      .error .uniqueViolation := by
  unfold voteExistsB at h
  unfold insertVote
  simp [h]

/-! ## Framing of each operation over the member table -/

theorem leader_members_framed (ts : Int) (pw : String) (m : Int) (s : DB) :
    MembersFramed s.members (leader ts pw m s).2.members := by
  unfold leader
  rw [create_member_eq]
  by_cases h : memberExistsB s m
  · rw [if_pos h]
    exact membersFramed_refl _
  · rw [if_neg h]
    right
    refine ⟨_, rfl, ?_⟩
    exact (by simpa using h : memberExistsB s m = false)

theorem define_action_members_framed (yearOf : Int → Int) (nowYear ts m : Int)
    (pw : String) (a p : Int) (stmt : String) (auth : Option Int) (s : DB) :
    MembersFramed s.members
      (define_action yearOf nowYear ts m pw a p stmt auth s).2.members := by
  unfold define_action
  split
  · exact membersFramed_refl _
  · rename_i s1 h1
    have hf1 := handle_member_framed yearOf nowYear m pw ts s s1 h1
    split
    · exact hf1
    · rename_i s2 h2
      have e2 := (handle_project_ok_members p auth ts s1 s2 h2).1
      split
      · show MembersFramed s.members s2.members
        rw [e2]; exact hf1
      · rename_i s3 h3
        have e3 := (insertAction_ok_members s2 _ s3 h3).1
        show MembersFramed s.members s3.members
        rw [e3, e2]; exact hf1

theorem vote_op_members_framed (yearOf : Int → Int) (nowYear ts m : Int)
    (pw : String) (a : Int) (d : String) (s : DB) :
    MembersFramed s.members (vote_op yearOf nowYear ts m pw a d s).2.members := by
  unfold vote_op
  split
  · exact membersFramed_refl _
  · rename_i s1 h1
    have hf1 := handle_member_framed yearOf nowYear m pw ts s s1 h1
    split
    · exact hf1
    · split
      · exact hf1
      · rename_i s2 h2
        have e2 := (insertVote_ok_members s1 _ s2 h2).1
        show MembersFramed s.members s2.members
        rw [e2]; exact hf1

/-! ## Claims -/

/-- Claim C1 (code bug): the claim — and the docstring of `trolls` ("more
downvotes than upvotes for all summarized actions proposed by him") — require
exactly the members whose downvotes TOTALLED ACROSS ALL their actions exceed
their totalled upvotes.  On `dbC1`, member 1's totals are 5 upvotes and 3
downvotes, so the member must be excluded; yet the embedded query returns
member 1 with sums `(0, 3)`: the SQL applies `WHERE downvotes - upvotes > 0`
per action before grouping and keys the `GROUP BY` on the per-action counters,
so the sums only range over the member's individually net-downvoted actions. -/
theorem trolls_per_action_filter_bug :
    (trolls (fun t => t) 2021 dbC1).1 = .success [(1, 0, 3, false)]
  ∧ memberTotalUpvotes dbC1 1 = 5
  ∧ memberTotalDownvotes dbC1 1 = 3 := by
  decide

/-- Claim C2 (counterexample): after member 1's first upvote on action 7, a
second upvote by the same member on the same action does NOT fail through a
pre-insert existence check: it reaches the insert, the store's primary key
rejects it, and the resulting `IntegrityError` escapes the
`except psycopg2.InternalError` boundary uncaught.  Had the source's
(never-called) `_verify_if_voted` run before the insert, as the claim states,
the outcome would have been the caught failure envelope, as `vote_op_claim`
shows on the same input. -/
theorem vote_unique_cex :
    (upvote (fun t => t) 2025 2026 1 "p" 7
        ((upvote (fun t => t) 2025 2025 1 "p" 7 dbAuth).2)).1
      = .raised .uniqueViolation
  ∧ (vote_op_claim (fun t => t) 2025 2026 1 "p" 7 "up"
        ((upvote (fun t => t) 2025 2025 1 "p" 7 dbAuth).2)).1 = .failure := by
  decide

/-- Claim C2 (amended): with valid fresh credentials and an existing target
action, a vote request succeeds and records exactly one vote when the
(member, action) pair has not voted, and otherwise records nothing and raises
an uncaught store unique violation — uniqueness is enforced by the store's
primary key at insert time, not by any existence check before the insert. -/
theorem vote_unique_store_enforced (yearOf : Int → Int) (nowYear ts m : Int)
    (pw : String) (a : Int) (d : String) (s : DB)
    (hmem : memberExistsB s m = true)
    (hval : validate_member yearOf nowYear m pw s = .ok ())
    (hact : actionExistsB s a = true) :
    vote_op yearOf nowYear ts m pw a d s =
      if voteExistsB s m a then (.raised .uniqueViolation, s)
      else (.success, { s with votes := s.votes ++
        [{ idMember := m, idAction := a, direction := d, creationDate := ts }] }) := by
  have hhm : handle_member yearOf nowYear m pw ts s = .ok s := by
    rw [handle_member_eq, if_pos hmem, hval]
  have hrec : row_existence_check (actionExistsB s a) = .ok () := by
    rw [hact]; rfl
  unfold vote_op
  simp only [hhm, hrec]
  cases hv : voteExistsB s m a
  · rw [if_neg (by simp [hv])]
    simp only [insertVote_fresh s m a d ts hv]
  · rw [if_pos (by simp [hv])]
    simp only [insertVote_dup s m a d ts hv]
    rfl

/-- Claim C2 (witness): the amended theorem applied at a concrete state. -/
theorem vote_unique_store_enforced_witness :
    (memberExistsB dbAuth 1 = true ∧
     validate_member (fun t => t) 2025 1 "p" dbAuth = .ok () ∧
     actionExistsB dbAuth 7 = true) ∧
    vote_op (fun t => t) 2025 100 1 "p" 7 "up" dbAuth =
      (if voteExistsB dbAuth 1 7 then (.raised .uniqueViolation, dbAuth)
       else (.success, { dbAuth with votes := dbAuth.votes ++
         [{ idMember := 1, idAction := 7, direction := "up", creationDate := 100 }] })) :=
  ⟨⟨by decide, rfl, by decide⟩,
   vote_unique_store_enforced (fun t => t) 2025 100 1 "p" 7 "up" dbAuth
     (by decide) rfl (by decide)⟩

/-- Claim C3 (counterexample): member 5 exists in `dbC3` with password
"good"; a `support` request for member 5 with the wrong password "bad" is not
answered by reporting the authentication failure (the caught `InvalidMember`
would yield the failure envelope): the provisioner falls into its creation
branch, attempts to re-create the member, and the store's unique-id constraint
rejects the insert with an `IntegrityError` that escapes uncaught.  The
existing row survives only because of the store constraint. -/
theorem member_recreation_on_auth_failure_cex :
    support (fun t => t) 2025 2025 5 "bad" 30 1 none dbC3 =
      (.raised .uniqueViolation, dbC3) := by
  decide

/-- Claim C3 (amended): the member-provisioning step shared by `support`,
`protest`, `upvote` and `downvote` creates exactly one regular member with the
given password and timestamp when the id is absent, and succeeds without any
write when the id is present and authentication passes; but when the id is
present and authentication fails (wrong password or stale year), the code
attempts to RE-CREATE the member — the insert collides with the unique-id
constraint and the resulting store error (not the authentication failure)
propagates. -/
theorem member_provisioning_amended (yearOf : Int → Int) (nowYear m : Int)
    (pw : String) (ts : Int) (s : DB) :
    (memberExistsB s m = false →
      handle_member yearOf nowYear m pw ts s =
        .ok { s with members := s.members ++
          [{ id := m, password := pw, rank := "regular", activityDate := ts }] })
  ∧ (memberExistsB s m = true →
      validate_member yearOf nowYear m pw s = .error .invalidMember →
      handle_member yearOf nowYear m pw ts s = .error .uniqueViolation)
  ∧ (memberExistsB s m = true →
      validate_member yearOf nowYear m pw s = .ok () →
      handle_member yearOf nowYear m pw ts s = .ok s) := by
  refine ⟨fun h => ?_, fun h hv => ?_, fun h hv => ?_⟩
  · rw [handle_member_eq, if_neg (by simp [h])]
  · rw [handle_member_eq, if_pos h, hv]
  · rw [handle_member_eq, if_pos h, hv]

/-- Claim C3 (witness): the amended theorem applied at concrete states — the
auth-failure branch on `dbC3` and the creation branch on the empty state. -/
theorem member_provisioning_amended_witness :
    (memberExistsB dbC3 5 = true ∧
     validate_member (fun t => t) 2025 5 "bad" dbC3 = .error .invalidMember ∧
     handle_member (fun t => t) 2025 5 "bad" 77 dbC3 = .error .uniqueViolation) ∧
    (memberExistsB dbEmpty 5 = false ∧
     handle_member (fun t => t) 2025 5 "bad" 77 dbEmpty =
       .ok { dbEmpty with members := dbEmpty.members ++
         [{ id := 5, password := "bad", rank := "regular", activityDate := 77 }] }) :=
  ⟨⟨by decide, rfl,
    (member_provisioning_amended (fun t => t) 2025 5 "bad" 77 dbC3).2.1
      (by decide) rfl⟩,
   ⟨by decide,
    (member_provisioning_amended (fun t => t) 2025 5 "bad" 77 dbEmpty).1
      (by decide)⟩⟩

/-- Claim C4 (counterexample): `leader` on a fresh id returns no envelope at
all — the Python function returns `None` on success — and a `support` request
whose action id is already used raises an uncaught store `IntegrityError`
instead of returning the failure envelope. -/
theorem operation_boundary_cex :
    (leader 100 "pw" 1 dbEmpty).1 = .pyNone
  ∧ (support (fun t => t) 2025 2025 2 "r" 7 1 none dbAuth).1 =
      .raised .uniqueViolation := by
  decide

/-- Claim C4 (amended): the `except psycopg2.InternalError` boundary converts
every policy error (`InvalidMember`, `InvalidRowCount`) into the failure
envelope, and the read operations never leak an exception; but a store
unique-constraint violation is not an `InternalError`, so the only exceptions
that escape a mutating operation are such store errors, and `leader` returns
no envelope on success (Python `None`) — its only other outcome is the
uncaught unique violation for an already-used id. -/
theorem operation_boundary_amended (yearOf : Int → Int) (nowYear ts m : Int)
    (pw : String) (a p : Int) (auth : Option Int) (atype : Option String)
    (pF aF actF pF2 aF2 : Option Int) (s : DB) :
    raisedOnlyExternal (leader ts pw m s).1 = true
  ∧ ((leader ts pw m s).1 = .pyNone ∨
      (leader ts pw m s).1 = .raised .uniqueViolation)
  ∧ raisedOnlyExternal (support yearOf nowYear ts m pw a p auth s).1 = true
  ∧ raisedOnlyExternal (protest yearOf nowYear ts m pw a p auth s).1 = true
  ∧ raisedOnlyExternal (upvote yearOf nowYear ts m pw a s).1 = true
  ∧ raisedOnlyExternal (downvote yearOf nowYear ts m pw a s).1 = true
  ∧ listNeverRaises (actions_op yearOf nowYear m pw atype pF aF s).1 = true
  ∧ listNeverRaises (projects_op yearOf nowYear m pw aF2 s).1 = true
  ∧ listNeverRaises (votes_op yearOf nowYear m pw actF pF2 s).1 = true
  ∧ listNeverRaises (trolls yearOf ts s).1 = true := by
  have hleader : (leader ts pw m s).1 = .pyNone ∨
      (leader ts pw m s).1 = .raised .uniqueViolation := by
    unfold leader
    rw [create_member_eq]
    by_cases h : memberExistsB s m
    · rw [if_pos h]; right; rfl
    · rw [if_neg h]; left; rfl
  have hmut : ∀ o : MutOutcome,
      (o = .success ∨ ∃ e, o = mutBoundary e) → raisedOnlyExternal o = true := by
    rintro o (rfl | ⟨e, rfl⟩)
    · rfl
    · exact raisedOnlyExternal_mutBoundary e
  refine ⟨?_, hleader, ?_, ?_, ?_, ?_, ?_, ?_, ?_, rfl⟩
  · rcases hleader with h | h <;> rw [h] <;> rfl
  · exact hmut _ (define_action_outcome_boundary yearOf nowYear ts m pw a p "support" auth s)
  · exact hmut _ (define_action_outcome_boundary yearOf nowYear ts m pw a p "protest" auth s)
  · exact hmut _ (vote_op_outcome_boundary yearOf nowYear ts m pw a "up" s)
  · exact hmut _ (vote_op_outcome_boundary yearOf nowYear ts m pw a "down" s)
  · rw [actions_op_eq]
    dsimp only
    split <;> rfl
  · rw [projects_op_eq]
    dsimp only
    split <;> rfl
  · rw [votes_op_eq]
    dsimp only
    split <;> rfl

/-- Claim C5 (counterexample): member 1 of `dbC5` was created with activity
year 2025.  A request carrying timestamp 2025 — the same year as the stored
activity year, so the claim's reading ("the year of the request") accepts it,
as `validate_member_claim` confirms — is still rejected when the wall clock
has moved to 2026: authentication compares against `datetime.now().year`,
ignoring the request timestamp entirely (`_validate_member` does not even
receive it).  Through `upvote` the failed validation then cascades into the
provisioner's re-creation attempt and an uncaught unique violation. -/
theorem validate_member_year_source_cex :
    validate_member_claim (fun t => t) 2025 1 "p" dbC5 = .ok ()
  ∧ validate_member (fun t => t) 2026 1 "p" dbC5 = .error .invalidMember
  ∧ (upvote (fun t => t) 2026 2025 1 "p" 7 dbC5).1 = .raised .uniqueViolation := by
  refine ⟨rfl, rfl, by decide⟩

/-- Claim C5 (amended): under unique member ids, authentication succeeds iff
some stored row matches the id and password AND its activity year equals the
processing-time wall-clock year (`datetime.now().year`) — not the year of any
request timestamp — and it raises `InvalidMember` exactly otherwise;
`validate_member` is read-only by construction. -/
theorem validate_member_wall_clock (yearOf : Int → Int) (nowYear m : Int)
    (pw : String) (s : DB)
    (hnd : (s.members.map (fun x => x.id)).Nodup) :
    (validate_member yearOf nowYear m pw s = .ok () ↔
      ∃ r, r ∈ s.members ∧ r.id = m ∧ r.password = pw ∧
        yearOf r.activityDate = nowYear)
  ∧ (validate_member yearOf nowYear m pw s = .error .invalidMember ↔
      ¬ ∃ r, r ∈ s.members ∧ r.id = m ∧ r.password = pw ∧
        yearOf r.activityDate = nowYear) := by
  have main : validate_member yearOf nowYear m pw s = .ok () ↔
      ∃ r, r ∈ s.members ∧ r.id = m ∧ r.password = pw ∧
        yearOf r.activityDate = nowYear := by
    constructor
    · intro h
      unfold validate_member at h
      cases hf : s.members.find? (fun x => x.id == m && x.password == pw) with
      | none => rw [hf] at h; cases h
      | some r =>
        rw [hf] at h
        have h2 : (if (nowYear - yearOf r.activityDate != 0) = true then
            (Except.error DbError.invalidMember : Except DbError Unit)
          else Except.ok ()) = Except.ok () := h
        have hmem := List.mem_of_find?_eq_some hf
        have hp := List.find?_some hf
        simp only [Bool.and_eq_true, beq_iff_eq] at hp
        by_cases hy : nowYear - yearOf r.activityDate != 0
        · rw [if_pos hy] at h2; cases h2
        · refine ⟨r, hmem, hp.1, hp.2, ?_⟩
          simp only [bne_iff_ne, ne_eq, not_not] at hy
          omega
    · rintro ⟨r, hr, hid, hpw, hyr⟩
      unfold validate_member
      rw [find_member_unique s m pw r hnd hr hid hpw]
      show (if (nowYear - yearOf r.activityDate != 0) = true then
          (Except.error DbError.invalidMember : Except DbError Unit)
        else Except.ok ()) = Except.ok ()
      rw [hyr]
      simp
  refine ⟨main, ?_, ?_⟩
  · intro he hex
    have hok := main.mpr hex
    rw [hok] at he
    cases he
  · intro hne
    rcases validate_member_cases yearOf nowYear m pw s with hv | hv
    · exact absurd (main.mp hv) hne
    · exact hv

/-- Claim C5 (witness): the amended theorem applied at `dbC5`, whose member 1
matches password "p" with activity year 2025 equal to the wall-clock year. -/
theorem validate_member_wall_clock_witness :
    (dbC5.members.map (fun x => x.id)).Nodup ∧
    validate_member (fun t => t) 2025 1 "p" dbC5 = .ok () :=
  ⟨by decide,
   (validate_member_wall_clock (fun t => t) 2025 1 "p" dbC5 (by decide)).1.mpr
     ⟨{ id := 1, password := "p", rank := "regular", activityDate := 2025 },
      by decide, rfl, rfl, rfl⟩⟩

/-- Claim C6 (confirmed): project resolution is a no-op when the referenced
project exists; when it is absent it creates the project iff an authority was
supplied, failing with `InvalidMember` exactly when it was not; and the row it
creates is owned by whatever authority id was supplied — the equation holds
for every authority value, so no check that the authority is an existing
member, let alone a leader, is involved. -/
theorem project_resolution_creates_iff (pid : Int) (auth : Option Int)
    (ts : Int) (s : DB) :
    (projectsAfter (handle_project pid auth ts s) s =
      if !projectExistsB s pid && auth.isSome then
        s.projects ++ [{ id := pid, idLeader := auth.getD 0, creationDate := ts }]
      else s.projects)
  ∧ (handle_project pid auth ts s = .error .invalidMember ↔
      (projectExistsB s pid = false ∧ auth = none)) := by
  rw [handle_project_eq]
  by_cases hp : projectExistsB s pid
  · refine ⟨?_, ?_⟩
    · rw [if_pos hp]
      simp [projectsAfter, hp]
    · rw [if_pos hp]
      constructor
      · intro h; cases h
      · rintro ⟨h1, _⟩
        rw [hp] at h1
        cases h1
  · have hp' : projectExistsB s pid = false := by simpa using hp
    cases auth with
    | none =>
      refine ⟨?_, ?_⟩
      · rw [if_neg hp]
        simp [projectsAfter, hp']
      · rw [if_neg hp]
        simp [hp']
    | some a =>
      refine ⟨?_, ?_⟩
      · rw [if_neg hp]
        simp [projectsAfter, hp']
      · rw [if_neg hp]
        simp

/-- Claim C7 (counterexample): repeating the identical `leader` request does
not return a success status — the unconditional duplicate insert violates the
member-id unique constraint and the store error escapes uncaught (the
credentials are not even consulted). -/
theorem leader_repeat_cex :
    (leader 100 "pw" 1 ((leader 100 "pw" 1 dbEmpty).2)).1 =
      .raised .uniqueViolation
  ∧ (leader 100 "pw" 1 ((leader 100 "pw" 1 dbEmpty).2)).1 ≠ .success := by
  decide

/-- Claim C7 (amended): a `leader` request for an id that already exists — in
particular an exact repetition of an earlier request — leaves the state (hence
the member's rank and activity timestamp) unchanged, but instead of a success
status it raises the uncaught store unique violation, regardless of the
supplied password. -/
theorem leader_repeat_raises_uncaught (ts : Int) (pw : String) (m : Int)
    (s : DB) (h : memberExistsB s m = true) :
    leader ts pw m s = (.raised .uniqueViolation, s) := by
  unfold leader
  rw [create_member_eq, if_pos h]
  rfl

/-- Claim C7 (witness): the amended theorem applied after a first `leader`
request created member 1. -/
theorem leader_repeat_raises_uncaught_witness :
    memberExistsB ((leader 100 "pw" 1 dbEmpty).2) 1 = true ∧
    leader 100 "pw" 1 ((leader 100 "pw" 1 dbEmpty).2) =
      (.raised .uniqueViolation, (leader 100 "pw" 1 dbEmpty).2) :=
  ⟨by decide,
   leader_repeat_raises_uncaught 100 "pw" 1 ((leader 100 "pw" 1 dbEmpty).2)
     (by decide)⟩

/-- Claim C8 (confirmed): a listing operation invoked by a member whose rank
is regular returns the failure envelope even when the password is correct and
the activity year fresh; and each listing answers with its success envelope
exactly when authentication succeeds AND the rank=leader existence check for
the requesting id passes. -/
theorem listings_require_leader (yearOf : Int → Int) (nowYear m : Int)
    (pw : String) (r : MemberRow) (s : DB) (atype : Option String)
    (pF aF aF2 actF pF2 : Option Int)
    (hnd : (s.members.map (fun x => x.id)).Nodup)
    (hr : r ∈ s.members) (hid : r.id = m) (hpw : r.password = pw)
    (hyr : yearOf r.activityDate = nowYear) (hrank : r.rank = "regular") :
    ((actions_op yearOf nowYear m pw atype pF aF s).1 = .failure
  ∧ (projects_op yearOf nowYear m pw aF2 s).1 = .failure
  ∧ (votes_op yearOf nowYear m pw actF pF2 s).1 = .failure)
  ∧ (isSuccessL (actions_op yearOf nowYear m pw atype pF aF s).1 =
      (isOkU (validate_member yearOf nowYear m pw s) && memberLeaderExistsB s m)
  ∧ isSuccessL (projects_op yearOf nowYear m pw aF2 s).1 =
      (isOkU (validate_member yearOf nowYear m pw s) && memberLeaderExistsB s m)
  ∧ isSuccessL (votes_op yearOf nowYear m pw actF pF2 s).1 =
      (isOkU (validate_member yearOf nowYear m pw s) && memberLeaderExistsB s m)) := by
  have hL : memberLeaderExistsB s m = false :=
    memberLeaderExistsB_false_of_regular s m r hnd hr hid hrank
  have hcond : (isOkU (validate_member yearOf nowYear m pw s) &&
      memberLeaderExistsB s m) = false := by
    rw [hL, Bool.and_false]
  refine ⟨⟨?_, ?_, ?_⟩, ?_, ?_, ?_⟩
  · rw [actions_op_eq]; dsimp only; rw [hcond]; rfl
  · rw [projects_op_eq]; dsimp only; rw [hcond]; rfl
  · rw [votes_op_eq]; dsimp only; rw [hcond]; rfl
  · rw [actions_op_eq]; dsimp only; rw [hcond]; rfl
  · rw [projects_op_eq]; dsimp only; rw [hcond]; rfl
  · rw [votes_op_eq]; dsimp only; rw [hcond]; rfl

/-- Claim C8 (witness): the theorem applied at `dbC8`, whose member 1 is
regular with correct password "p" and fresh activity year 2025. -/
theorem listings_require_leader_witness :
    ((dbC8.members.map (fun x => x.id)).Nodup ∧
      { id := 1, password := "p", rank := "regular",
        activityDate := (2025 : Int) } ∈ dbC8.members) ∧
    ((actions_op (fun t => t) 2025 1 "p" none none none dbC8).1 = .failure
  ∧ (projects_op (fun t => t) 2025 1 "p" none dbC8).1 = .failure
  ∧ (votes_op (fun t => t) 2025 1 "p" none none dbC8).1 = .failure) :=
  ⟨⟨by decide, by decide⟩,
   (listings_require_leader (fun t => t) 2025 1 "p"
      { id := 1, password := "p", rank := "regular", activityDate := 2025 }
      dbC8 none none none none none none
      (by decide) (by decide) rfl rfl rfl rfl).1⟩

/-- Claim C9 (confirmed): every operation leaves each pre-existing member row
exactly as it was — the member table is unchanged or extended by a single row
whose id was not present before, so no operation promotes a regular member to
leader or updates an existing member's activity timestamp; the read
operations do not change the state at all. -/
theorem member_rows_frame (yearOf : Int → Int) (nowYear ts m : Int)
    (pw : String) (a p : Int) (auth : Option Int) (atype : Option String)
    (pF aF actF pF2 aF2 : Option Int) (s : DB) :
    MembersFramed s.members (leader ts pw m s).2.members
  ∧ MembersFramed s.members (support yearOf nowYear ts m pw a p auth s).2.members
  ∧ MembersFramed s.members (protest yearOf nowYear ts m pw a p auth s).2.members
  ∧ MembersFramed s.members (upvote yearOf nowYear ts m pw a s).2.members
  ∧ MembersFramed s.members (downvote yearOf nowYear ts m pw a s).2.members
  ∧ (actions_op yearOf nowYear m pw atype pF aF s).2 = s
  ∧ (projects_op yearOf nowYear m pw aF2 s).2 = s
  ∧ (votes_op yearOf nowYear m pw actF pF2 s).2 = s
  ∧ (trolls yearOf ts s).2 = s := by
  refine ⟨leader_members_framed ts pw m s,
    define_action_members_framed yearOf nowYear ts m pw a p "support" auth s,
    define_action_members_framed yearOf nowYear ts m pw a p "protest" auth s,
    vote_op_members_framed yearOf nowYear ts m pw a "up" s,
    vote_op_members_framed yearOf nowYear ts m pw a "down" s,
    ?_, ?_, ?_, rfl⟩
  · rw [actions_op_eq]
  · rw [projects_op_eq]
  · rw [votes_op_eq]

/-- Claim C10 (confirmed): when the referenced project already exists, the
whole outcome of a `support` or `protest` request — envelope, escaped
exception and post-state alike — is identical for any two values of the
authority argument (absent, the real owner, a non-leader, anyone). -/
theorem project_authority_ignored (yearOf : Int → Int) (nowYear ts m : Int)
    (pw : String) (a p : Int) (auth1 auth2 : Option Int) (s : DB)
    (hp : projectExistsB s p = true) :
    support yearOf nowYear ts m pw a p auth1 s =
      support yearOf nowYear ts m pw a p auth2 s
  ∧ protest yearOf nowYear ts m pw a p auth1 s =
      protest yearOf nowYear ts m pw a p auth2 s := by
  have key : ∀ stmt : String,
      define_action yearOf nowYear ts m pw a p stmt auth1 s =
        define_action yearOf nowYear ts m pw a p stmt auth2 s := by
    intro stmt
    unfold define_action
    cases h1 : handle_member yearOf nowYear m pw ts s with
    | error e => rfl
    | ok s1 =>
      have hp1 : projectExistsB s1 p = true := by
        rcases handle_member_ok_cases yearOf nowYear m pw ts s s1 h1 with h | ⟨h, _⟩ <;>
          rw [h] <;> exact hp
      have h2a : handle_project p auth1 ts s1 = .ok s1 := by
        rw [handle_project_eq, if_pos hp1]
      have h2b : handle_project p auth2 ts s1 = .ok s1 := by
        rw [handle_project_eq, if_pos hp1]
      simp only [h2a, h2b]
  exact ⟨key "support", key "protest"⟩

/-- Claim C10 (witness): the theorem applied on `dbAuth`, where project 1
exists, comparing an absent authority with the bogus authority 42. -/
theorem project_authority_ignored_witness :
    projectExistsB dbAuth 1 = true ∧
    support (fun t => t) 2025 2025 1 "p" 50 1 none dbAuth =
      support (fun t => t) 2025 2025 1 "p" 50 1 (some 42) dbAuth :=
  ⟨by decide,
   (project_authority_ignored (fun t => t) 2025 2025 1 "p" 50 1 none (some 42)
      dbAuth (by decide)).1⟩
